import Mathlib

/-!
Verification of the TypeScript-to-JavaScript type-erasure transform
(`src/index.ts`).

The transform parses the input with the external TypeScript parser, walks
the resulting tree with the `walk` function (src/index.ts lines 19-114)
queuing `MagicString.overwrite(start, end, replacement)` edits against the
original text, renders the patched text, and hands it to the external
formatter (prettier).  We embed the walker and the range-splice buffer;
the parser and the formatter are external collaborators (spec section 1),
so syntax trees appear here as explicit data satisfying the parser
contract of spec section 6: every node carries a kind tag, a source range
`[pos, end)` measured in the original text, token-level children (what
`node.getChildren()` returns, only the token kinds the walker searches
for matter), and semantic children (what `ts.forEachChild` visits).
-/

/-- Token kinds that `walk` searches for among `node.getChildren()`:
`ts.SyntaxKind.ColonToken` (lines 69, 96, 105), `ts.SyntaxKind.LessThanToken`
(line 84), `ts.SyntaxKind.GreaterThanToken` (line 87).  Every other token is
`otherTok`. -/
inductive TokKind where
  | colonToken
  | lessThanToken
  | greaterThanToken
  | otherTok
deriving DecidableEq, BEq, Repr

/-- A token-level child as returned by `node.getChildren()`: its kind and its
source range `[pos, endP)`.  `pos` includes the leading trivia of the token,
as in the TypeScript AST. -/
structure Tok where
  kind : TokKind
  pos : Nat
  endP : Nat
deriving DecidableEq, Repr

/-- An import or export specifier (`ts.ImportSpecifier` / `ts.ExportSpecifier`):
the walker reads only `e.isTypeOnly` (lines 26, 41) and `e.getText()`
(lines 30, 45).  `text` is the original source text of the specifier
(trivia-free, as `getText()` returns). -/
structure Specifier where
  isTypeOnly : Bool
  text : String
deriving DecidableEq, Repr

/-- A function parameter as the function branch of `walk` reads it
(lines 101-110): `tokens` is `p.getChildren()` and `typeEnd` is `p.type.end`
when the parameter has a declared type (`p.type` present). -/
structure Param where
  tokens : List Tok
  typeEnd : Option Nat
deriving DecidableEq, Repr

/-- The node kinds `walk` distinguishes (src/index.ts lines 20-111).  Each
carries exactly the kind-specific data the walker reads:

* `importDecl clauseTypeOnly`: `ts.isImportDeclaration` with the truth value
  of `node.importClause?.isTypeOnly` (an absent clause behaves as `false`);
* `namedImports els` / `namedExports els`: `ts.isNamedImports` /
  `ts.isNamedExports` with `node.elements`;
* `exportDecl t`: `ts.isExportDeclaration` with `node.isTypeOnly`;
* `asExpr txt`: `ts.isAsExpression` with `node.expression.getText()`;
* `typeAliasDecl` / `interfaceDecl` / `enumDecl` / `moduleDecl`: the four
  whole-range-deleted declaration kinds of lines 55-63;
* `varDecl typeEnd`: `ts.isVariableDeclaration` with `node.type.end` when
  `node.type` is present;
* `functionDecl` / `functionExpr` / `arrowFunction`: the three function-like
  kinds of lines 76-80, carrying the number of declared type parameters when
  a `typeParameters` list is present, `node.type.end` when a return type is
  declared, and the parameter list;
* `other`: every node kind no branch of `walk` matches (JSX elements and
  attributes, blocks, statements, parameters met as plain children, type
  nodes, method declarations, ...). -/
inductive NodeKind where
  | importDecl (clauseTypeOnly : Bool)
  | namedImports (els : List Specifier)
  | exportDecl (isTypeOnly : Bool)
  | namedExports (els : List Specifier)
  | asExpr (exprText : String)
  | typeAliasDecl
  | interfaceDecl
  | enumDecl
  | moduleDecl
  | varDecl (typeEnd : Option Nat)
  | functionDecl (typeParams : Option Nat) (typeEnd : Option Nat) (params : List Param)
  | functionExpr (typeParams : Option Nat) (typeEnd : Option Nat) (params : List Param)
  | arrowFunction (typeParams : Option Nat) (typeEnd : Option Nat) (params : List Param)
  | other
deriving DecidableEq, Repr

/-- A syntax-tree node: kind, source range `[pos, endP)` (`pos` includes the
leading trivia of the node, exactly as `node.pos` does in the TypeScript AST),
token-level children (`node.getChildren()`), and semantic children in source
order (`ts.forEachChild`). -/
inductive Node where
  | mk (kind : NodeKind) (pos : Nat) (endP : Nat) (tokens : List Tok) (children : List Node)

/-- One queued buffer operation `code.overwrite(start, finish, content)`:
replace the source range `[start, finish)` with `content`. -/
structure Edit where
  start : Nat
  finish : Nat
  content : String
deriving DecidableEq, Repr

/-- The edits queued by the parameter loop body, src/index.ts lines 101-110:
if the parameter has a declared type and a colon token among its children,
overwrite `[colonToken.pos, p.type.end)` with the empty string. -/
def paramEdits (p : Param) : List Edit :=
  match p.typeEnd with
  | some te =>
    match p.tokens.find? (fun c => c.kind == TokKind.colonToken) with
    | some colonToken => [⟨colonToken.pos, te, ""⟩]
    | none => []
  | none => []

/-- The edits queued by the function-like branch, src/index.ts lines 76-111:
the generic-list deletion `[ltToken.pos, gtToken.end)` (when `typeParameters`
is present and nonempty and both a `<` and a `>` token are found among the
node), then the return-type deletion `[colonToken.pos, node.type.end)`,
then the per-parameter deletions. -/
def funcEdits (tokens : List Tok) (typeParams : Option Nat) (typeEnd : Option Nat)
    (params : List Param) : List Edit :=
  (match typeParams with
   | some n =>
     if n > 0 then
       match tokens.find? (fun c => c.kind == TokKind.lessThanToken),
             tokens.find? (fun c => c.kind == TokKind.greaterThanToken) with
       | some ltToken, some gtToken => [⟨ltToken.pos, gtToken.endP, ""⟩]
       | _, _ => []
     else []
   | none => []) ++
  (match typeEnd with
   | some te =>
     match tokens.find? (fun c => c.kind == TokKind.colonToken) with
     | some colonToken => [⟨colonToken.pos, te, ""⟩]
     | none => []
   | none => []) ++
  (params.map paramEdits).flatten

/-- The edits a single visit of `walk` queues at this node, before any
recursion: the direct transcription of the branch bodies of
src/index.ts lines 20-111. -/
def nodeEdits (n : Node) : List Edit :=
  match n with
  | .mk k pos endP tokens _ =>
    match k with
    | .importDecl clauseTypeOnly =>
      if clauseTypeOnly then [⟨pos, endP, ""⟩] else []
    | .namedImports els =>
      [⟨pos, endP,
        "\x7b" ++ String.intercalate ","
          (((els.filter (fun e => !e.isTypeOnly)).map Specifier.text)) ++ "\x7d"⟩]
    | .exportDecl isTypeOnly =>
      if isTypeOnly then [⟨pos, endP, ""⟩] else []
    | .namedExports els =>
      [⟨pos, endP,
        "\x7b" ++ String.intercalate ", "
          (((els.filter (fun e => !e.isTypeOnly)).map Specifier.text)) ++ "\x7d"⟩]
    | .asExpr exprText => [⟨pos, endP, exprText⟩]
    | .typeAliasDecl => [⟨pos, endP, ""⟩]
    | .interfaceDecl => [⟨pos, endP, ""⟩]
    | .enumDecl => [⟨pos, endP, ""⟩]
    | .moduleDecl => [⟨pos, endP, ""⟩]
    | .varDecl typeEnd =>
      (match typeEnd with
       | some te =>
         match tokens.find? (fun c => c.kind == TokKind.colonToken) with
         | some colonToken => [⟨colonToken.pos, te, ""⟩]
         | none => []
       | none => [])
    | .functionDecl tp te ps => funcEdits tokens tp te ps
    | .functionExpr tp te ps => funcEdits tokens tp te ps
    | .arrowFunction tp te ps => funcEdits tokens tp te ps
    | .other => []

/-- Whether the branch of `walk` matching this node ends in `return`, so the
walker does not descend into the children of the node: true exactly for the
branches at lines 20-63 (type-only import, named imports, type-only export,
named exports, as-expression, and the four whole-range-deleted declaration
kinds); the variable-declaration and function-like branches (lines 65-111)
fall through to `ts.forEachChild(node, walk)` at line 113. -/
def earlyReturn (n : Node) : Bool :=
  match n with
  | .mk k _ _ _ _ =>
    match k with
    | .importDecl clauseTypeOnly => clauseTypeOnly
    | .namedImports _ => true
    | .exportDecl isTypeOnly => isTypeOnly
    | .namedExports _ => true
    | .asExpr _ => true
    | .typeAliasDecl => true
    | .interfaceDecl => true
    | .enumDecl => true
    | .moduleDecl => true
    | .varDecl _ => false
    | .functionDecl _ _ _ => false
    | .functionExpr _ _ _ => false
    | .arrowFunction _ _ _ => false
    | .other => false

mutual

/-- The walker of src/index.ts lines 19-114, as the list of edits it queues
in call order: the edits of the matching branch, then (unless that branch
returned early) the edits of the depth-first traversal of the children. -/
def walk (n : Node) : List Edit :=
  match n with
  | .mk _ _ _ _ children =>
    nodeEdits n ++ (if earlyReturn n then [] else walkList children)

/-- `ts.forEachChild(node, walk)` (line 113): walk the children left to
right, concatenating the queued edits. -/
def walkList (ns : List Node) : List Edit :=
  match ns with
  | [] => []
  | n :: rest => walk n ++ walkList rest

end

example :
    walk (.mk .interfaceDecl 0 5 [] [.mk .enumDecl 1 2 [] []]) = [⟨0, 5, ""⟩] := rfl

example :
    walk (.mk (.varDecl (some 15)) 5 21 [⟨.otherTok, 5, 7⟩, ⟨.colonToken, 7, 8⟩] [])
      = [⟨7, 15, ""⟩] := by decide

/-- The kind tag of a node. -/
def Node.kind : Node → NodeKind
  | .mk k _ _ _ _ => k

/-- The start of the source range of a node (`node.pos`, leading trivia
included). -/
def Node.pos : Node → Nat
  | .mk _ p _ _ _ => p

/-- The end of the source range of a node (`node.end`). -/
def Node.endP : Node → Nat
  | .mk _ _ q _ _ => q

/-- The semantic children of a node (`ts.forEachChild` order). -/
def Node.children : Node → List Node
  | .mk _ _ _ _ ch => ch

/-- Insert an edit into a list sorted by `start`. -/
def insertEdit (e : Edit) : List Edit → List Edit
  | [] => [e]
  | f :: fs => if e.start ≤ f.start then e :: f :: fs else f :: insertEdit e fs

/-- Sort edits by `start`.  `MagicString` applies queued overwrites by
source position, not by call order, so rendering sorts first. -/
def sortEdits : List Edit → List Edit
  | [] => []
  | e :: es => insertEdit e (sortEdits es)

/-- Splice a position-sorted edit list into `src`, starting from source
offset `i`: copy the bytes up to the next edit, emit the replacement,
continue after the replaced range. -/
def spliceFrom (src : List Char) : Nat → List Edit → List Char
  | i, [] => src.drop i
  | i, e :: es => (src.drop i).take (e.start - i) ++ e.content.toList ++ spliceFrom src e.finish es

/-- `MagicString.toString` for a set of pairwise disjoint queued overwrites:
the original text with every queued replacement applied in range order and
all bytes outside the queued ranges reproduced verbatim (spec section 4.2).
(`MagicString` itself throws on overlapping overwrites; this model renders
only edit sets the walker is supposed to produce, i.e. disjoint ones.) -/
def render (src : String) (edits : List Edit) : String :=
  String.mk (spliceFrom src.toList 0 (sortEdits edits))

/-- Whitespace as matched by the regular expression class `\s` for the
inputs considered here. -/
def isWsChar (c : Char) : Bool := c == ' ' || c == '\t' || c == '\n' || c == '\r'

/-- Collapse every whitespace run to a single space (the replace step of
`normalize`, src/index.ts line 122).  The flag records whether the previous
character was whitespace. -/
def collapseWs : Bool → List Char → List Char
  | _, [] => []
  | prevWs, c :: rest =>
    if isWsChar c then
      if prevWs then collapseWs true rest else ' ' :: collapseWs true rest
    else c :: collapseWs false rest

/-- `normalize` from src/index.ts lines 121-123:
`str.replace(/\s+/g, " ").trim()` (renamed, `normalize` is taken by
Mathlib). -/
def normalizeWs (s : String) : String :=
  String.mk ((((collapseWs false s.toList).dropWhile isWsChar).reverse.dropWhile isWsChar).reverse)

/-- Whether `p` is a prefix of `s` (character lists). -/
def isPre : List Char → List Char → Bool
  | [], _ => true
  | _ :: _, [] => false
  | a :: as, b :: bs => a == b && isPre as bs

/-- Whether `pat` occurs as a contiguous substring of `s`. -/
def hasSub (pat : List Char) : List Char → Bool
  | [] => isPre pat []
  | c :: rest => isPre pat (c :: rest) || hasSub pat rest

/-- Whether the string `pat` occurs as a contiguous substring of `s`
(the model of the `output.includes(...)` checks in the tests). -/
def strContains (s pat : String) : Bool := hasSub pat.toList s.toList

/-- Two edits touch disjoint source ranges: one ends no later than the
other starts. -/
def disjointB (a b : Edit) : Bool := Nat.ble a.finish b.start || Nat.ble b.finish a.start

/-- Every pair of edits in the list is range-disjoint (the invariant of
spec sections 3 and 8: for any two queued edits, their source ranges are
never overlapping). -/
def pairwiseDisjointB : List Edit → Bool
  | [] => true
  | e :: es => es.all (disjointB e) && pairwiseDisjointB es

mutual

/-- The node together with all of its descendants, in depth-first order. -/
def subnodes (n : Node) : List Node :=
  match n with
  | .mk k p q tk ch => .mk k p q tk ch :: subnodesList ch

/-- All nodes of a forest, in depth-first order. -/
def subnodesList (ns : List Node) : List Node :=
  match ns with
  | [] => []
  | n :: rest => subnodes n ++ subnodesList rest

end

/-- The number of nodes of the tree satisfying `p` (used to state that a
concrete tree does or does not contain a node of a given shape). -/
def countNodes (p : Node → Bool) (t : Node) : Nat :=
  ((subnodes t).filter p).length

mutual

/-- Every node of the tree satisfies `p`. -/
def allNodes (p : Node → Bool) (n : Node) : Bool :=
  match n with
  | .mk k pos q tk ch => p (.mk k pos q tk ch) && allNodesList p ch

/-- Every node of the forest satisfies `p`. -/
def allNodesList (p : Node → Bool) (ns : List Node) : Bool :=
  match ns with
  | [] => true
  | n :: rest => allNodes p n && allNodesList p rest

end

/-- No single visit of any node of the tree queues an edit (every node is
one the classifier passes over silently). -/
def inertTree (t : Node) : Bool :=
  allNodes (fun m => (nodeEdits m).isEmpty) t

/-- The kind carries no type-only syntax: no type-only import/export, no
type-only specifier, no type assertion, none of the four type-space
declaration kinds, no declared type, and no type parameters (spec glossary,
type-only construct). -/
def kindTypeFree : NodeKind → Bool
  | .importDecl clauseTypeOnly => !clauseTypeOnly
  | .namedImports els => els.all (fun e => !e.isTypeOnly)
  | .exportDecl isTypeOnly => !isTypeOnly
  | .namedExports els => els.all (fun e => !e.isTypeOnly)
  | .asExpr _ => false
  | .typeAliasDecl => false
  | .interfaceDecl => false
  | .enumDecl => false
  | .moduleDecl => false
  | .varDecl typeEnd => typeEnd.isNone
  | .functionDecl tp te ps => tp.isNone && te.isNone && ps.all (fun p => p.typeEnd.isNone)
  | .functionExpr tp te ps => tp.isNone && te.isNone && ps.all (fun p => p.typeEnd.isNone)
  | .arrowFunction tp te ps => tp.isNone && te.isNone && ps.all (fun p => p.typeEnd.isNone)
  | .other => true

/-- The parsed tree contains no type-only syntax at all. -/
def typeOnlyFree (t : Node) : Bool :=
  allNodes (fun m => kindTypeFree m.kind) t

theorem render_nil (src : String) : render src [] = src := rfl

theorem mem_walkList {e : Edit} : ∀ {ns : List Node},
    e ∈ walkList ns ↔ ∃ n ∈ ns, e ∈ walk n := by
  intro ns
  induction ns with
  | nil => simp [walkList]
  | cons n rest ih => simp [walkList, List.mem_append, ih]

theorem sizeOf_mem_children_lt (k : NodeKind) (p q : Nat) (tk : List Tok)
    {c : Node} {ch : List Node} (h : c ∈ ch) : sizeOf c < sizeOf (Node.mk k p q tk ch) := by
  have h1 := List.sizeOf_lt_of_mem h
  simp only [Node.mk.sizeOf_spec]
  omega

theorem mem_subnodesList {x c : Node} : ∀ {ch : List Node},
    c ∈ ch → x ∈ subnodes c → x ∈ subnodesList ch := by
  intro ch
  induction ch with
  | nil => simp
  | cons n rest ih =>
    intro hc hx
    rcases List.mem_cons.mp hc with h | h
    · subst h
      rw [subnodesList]
      exact List.mem_append.mpr (Or.inl hx)
    · rw [subnodesList]
      exact List.mem_append.mpr (Or.inr (ih h hx))

theorem walkList_nil_of : ∀ (ns : List Node), (∀ c ∈ ns, walk c = []) → walkList ns = [] := by
  intro ns
  induction ns with
  | nil => intro _; rfl
  | cons n rest ih =>
    intro h
    rw [walkList, h n (List.mem_cons_self n rest), ih (fun c hc => h c (List.mem_cons_of_mem n hc))]
    rfl

theorem allNodesList_mem {p : Node → Bool} {c : Node} : ∀ {ns : List Node},
    allNodesList p ns = true → c ∈ ns → allNodes p c = true := by
  intro ns
  induction ns with
  | nil => simp
  | cons n rest ih =>
    intro hall hc
    rw [allNodesList, Bool.and_eq_true] at hall
    rcases List.mem_cons.mp hc with h | h
    · subst h; exact hall.1
    · exact ih hall.2 h

/-- Every edit `walk` queues is queued by the matching branch at some node
of the tree (the classifier derives every edit from the structured fields
of a parser node, never from scanning the raw text). -/
theorem walk_edit_from_node : ∀ (t : Node) (e : Edit),
    e ∈ walk t → ∃ n, n ∈ subnodes t ∧ e ∈ nodeEdits n := by
  suffices H : ∀ (fuel : Nat) (t : Node), sizeOf t ≤ fuel → ∀ e, e ∈ walk t →
      ∃ n, n ∈ subnodes t ∧ e ∈ nodeEdits n by
    intro t e he
    exact H (sizeOf t) t le_rfl e he
  intro fuel
  induction fuel with
  | zero =>
    intro t hle
    cases t with
    | mk k p q tk ch =>
      simp only [Node.mk.sizeOf_spec] at hle
      omega
  | succ m ih =>
    intro t hle e he
    cases t with
    | mk k p q tk ch =>
      simp only [walk] at he
      rcases List.mem_append.mp he with h1 | h2
      · exact ⟨Node.mk k p q tk ch, by rw [subnodes]; exact List.mem_cons_self _ _, h1⟩
      · by_cases hER : earlyReturn (Node.mk k p q tk ch) = true
        · rw [if_pos hER] at h2
          cases h2
        · rw [if_neg hER] at h2
          obtain ⟨c, hc, hec⟩ := mem_walkList.mp h2
          have hsz : sizeOf c ≤ m := by
            have hlt := sizeOf_mem_children_lt k p q tk hc
            simp only [Node.mk.sizeOf_spec] at hlt hle ⊢
            omega
          obtain ⟨n, hn, hen⟩ := ih c hsz e hec
          refine ⟨n, ?_, hen⟩
          rw [subnodes]
          exact List.mem_cons_of_mem _ (mem_subnodesList hc hn)

/-- A tree every node of which the classifier passes over silently produces
no edits at all. -/
theorem inert_walk_nil : ∀ (t : Node), inertTree t = true → walk t = [] := by
  suffices H : ∀ (fuel : Nat) (t : Node), sizeOf t ≤ fuel → inertTree t = true →
      walk t = [] by
    intro t hin
    exact H (sizeOf t) t le_rfl hin
  intro fuel
  induction fuel with
  | zero =>
    intro t hle
    cases t with
    | mk k p q tk ch =>
      simp only [Node.mk.sizeOf_spec] at hle
      omega
  | succ m ih =>
    intro t hle hin
    cases t with
    | mk k p q tk ch =>
      rw [inertTree, allNodes, Bool.and_eq_true] at hin
      have hne : nodeEdits (Node.mk k p q tk ch) = [] := by
        have h1 := hin.1
        rwa [List.isEmpty_iff] at h1
      rw [walk, hne, List.nil_append]
      by_cases hER : earlyReturn (Node.mk k p q tk ch) = true
      · rw [if_pos hER]
      · rw [if_neg hER]
        refine walkList_nil_of ch (fun c hc => ?_)
        have hsz : sizeOf c ≤ m := by
          have hlt := sizeOf_mem_children_lt k p q tk hc
          simp only [Node.mk.sizeOf_spec] at hlt hle ⊢
          omega
        exact ih c hsz (allNodesList_mem hin.2 hc)

/-!
Concrete inputs and their parsed trees.  Each tree spells out what the
TypeScript parser (`ts.createSourceFile`, TSX, full trivia positions)
produces for the given source text: every `pos` is the end of the previous
token (leading trivia included) and every `endP` is the index one past the
last character of the node.  Nodes whose kinds no branch of `walk` matches
(source files, statements, blocks, identifiers, type nodes, JSX nodes,
class members, ...) are `other` nodes; their token lists are irrelevant to
the walker and left empty.
-/

/-- Scenario 2 of the spec: `const a: number = 123;`. -/
def s2src : String := "const a: number = 123;"

/-- The parse of `s2src`: source file, variable statement, declaration
list, one variable declarator `a: number = 123` with declared type
`number` ending at 15 and the colon token at `[7, 8)`. -/
def s2tree : Node :=
  .mk .other 0 22 [] [
    .mk .other 0 22 [] [
      .mk .other 0 21 [] [
        .mk (.varDecl (some 15)) 5 21
          [⟨.otherTok, 5, 7⟩, ⟨.colonToken, 7, 8⟩, ⟨.otherTok, 8, 15⟩,
           ⟨.otherTok, 15, 17⟩, ⟨.otherTok, 17, 21⟩]
          [.mk .other 5 7 [] [], .mk .other 8 15 [] [], .mk .other 17 21 [] []]]]]

/-- Scenario 3 of the spec:
`function foo<T>(a: number): string \x7b return String(a); \x7d`. -/
def s3src : String := "function foo<T>(a: number): string \x7b return String(a); \x7d"

/-- The parameter `a: number` of `s3src`: children are the name token
`[16, 17)`, the colon token `[17, 18)` and the type `[18, 25)`; the
declared type ends at 25. -/
def s3param : Param :=
  ⟨[⟨.otherTok, 16, 17⟩, ⟨.colonToken, 17, 18⟩, ⟨.otherTok, 18, 25⟩], some 25⟩

/-- The parse of `s3src`: a function declaration with one type parameter
(`<` at `[12, 13)`, `>` at `[14, 15)`), return type ending at 34 with the
colon token at `[26, 27)`, and one parameter. -/
def s3tree : Node :=
  .mk .other 0 56 [] [
    .mk (.functionDecl (some 1) (some 34) [s3param]) 0 56
      [⟨.otherTok, 0, 8⟩, ⟨.otherTok, 8, 12⟩, ⟨.lessThanToken, 12, 13⟩,
       ⟨.otherTok, 13, 14⟩, ⟨.greaterThanToken, 14, 15⟩, ⟨.otherTok, 15, 16⟩,
       ⟨.otherTok, 16, 25⟩, ⟨.otherTok, 25, 26⟩, ⟨.colonToken, 26, 27⟩,
       ⟨.otherTok, 27, 34⟩, ⟨.otherTok, 34, 56⟩]
      [.mk .other 8 12 [] [],
       .mk .other 13 14 [] [],
       .mk .other 16 25 [] [.mk .other 16 17 [] [], .mk .other 18 25 [] []],
       .mk .other 27 34 [] [],
       .mk .other 34 56 [] [
         .mk .other 36 54 [] [
           .mk .other 43 53 [] [.mk .other 43 50 [] [], .mk .other 50 52 [] []]]]]]

/-- Scenario 4 of the spec: `const b = "123" as number;`. -/
def s4src : String := "const b = \"123\" as number;"

/-- The parse of `s4src`: the initializer is the as-expression
`"123" as number` on `[9, 25)` whose inner expression has source text
`"123"`. -/
def s4tree : Node :=
  .mk .other 0 26 [] [
    .mk .other 0 26 [] [
      .mk .other 0 25 [] [
        .mk (.varDecl none) 5 25
          [⟨.otherTok, 5, 7⟩, ⟨.otherTok, 7, 9⟩]
          [.mk .other 5 7 [] [],
           .mk (.asExpr "\"123\"") 9 25 []
             [.mk .other 9 15 [] [], .mk .other 18 25 [] []]]]]]

/-- The input on which the walker queues overlapping edits:
`const x: \x7b ["a" as "a"]: number \x7d = 1;` — an as-expression inside
the computed property name of a type-literal annotation. -/
def c1src : String := "const x: \x7b [\"a\" as \"a\"]: number \x7d = 1;"

/-- The parse of `c1src`: the declarator `x` has the colon token at
`[7, 8)` and its declared type (the type literal) ends at 33; inside that
type, the computed property name `["a" as "a"]` holds the as-expression
`"a" as "a"` on `[12, 22)` with inner expression text `"a"`. -/
def c1tree : Node :=
  .mk .other 0 38 [] [
    .mk .other 0 38 [] [
      .mk .other 0 37 [] [
        .mk (.varDecl (some 33)) 5 37
          [⟨.otherTok, 5, 7⟩, ⟨.colonToken, 7, 8⟩, ⟨.otherTok, 8, 33⟩,
           ⟨.otherTok, 33, 35⟩, ⟨.otherTok, 35, 37⟩]
          [.mk .other 5 7 [] [],
           .mk .other 8 33 [] [
             .mk .other 10 31 [] [
               .mk .other 10 23 [] [
                 .mk (.asExpr "\"a\"") 12 22 []
                   [.mk .other 12 15 [] [], .mk .other 18 22 [] []]],
               .mk .other 24 31 [] []]],
           .mk .other 35 37 [] []]]]]

/-- An interface declaration nested inside a type-asserted expression:
`const f = (() => \x7b interface I \x7b\x7d \x7d) as any;`. -/
def c2src : String := "const f = (() => \x7b interface I \x7b\x7d \x7d) as any;"

/-- The parse of `c2src`: the initializer is the as-expression on
`[9, 43)` whose inner expression text is the whole parenthesized arrow
function; the interface declaration sits on `[18, 33)` inside the arrow
body. -/
def c2tree : Node :=
  .mk .other 0 44 [] [
    .mk .other 0 44 [] [
      .mk .other 0 43 [] [
        .mk (.varDecl none) 5 43
          [⟨.otherTok, 5, 7⟩, ⟨.otherTok, 7, 9⟩]
          [.mk .other 5 7 [] [],
           .mk (.asExpr "(() => \x7b interface I \x7b\x7d \x7d)") 9 43 []
             [.mk .other 9 36 [] [
                .mk (.arrowFunction none none []) 11 35 [] [
                  .mk .other 16 35 [] [
                    .mk .interfaceDecl 18 33 [] [.mk .other 28 30 [] []]]]],
              .mk .other 39 43 [] []]]]]]

/-- A wholly type-only named-import list: `import \x7b type Foo \x7d from "./m";`. -/
def c3src : String := "import \x7b type Foo \x7d from \"./m\";"

/-- The parse of `c3src`: a non-type-only import declaration (no
`import type`) whose import clause holds the named-import list on
`[6, 19)` with the single type-only specifier `type Foo`. -/
def c3tree : Node :=
  .mk .other 0 31 [] [
    .mk (.importDecl false) 0 31 [] [
      .mk .other 6 19 [] [
        .mk (.namedImports [⟨true, "type Foo"⟩]) 6 19 []
          [.mk .other 8 17 [] []]],
      .mk .other 24 30 [] []]]

/-- A class method with an annotated parameter:
`class C \x7b m(a: number) \x7b\x7d \x7d`. -/
def c4src : String := "class C \x7b m(a: number) \x7b\x7d \x7d"

/-- The parse of `c4src`: the class declaration and its method declaration
are node kinds no branch of `walk` matches, so both are `other`; the
parameter `a: number` of the method is met only as a plain child. -/
def c4tree : Node :=
  .mk .other 0 27 [] [
    .mk .other 0 27 [] [
      .mk .other 5 7 [] [],
      .mk .other 9 25 [] [
        .mk .other 9 11 [] [],
        .mk .other 12 21 [] [.mk .other 12 13 [] [], .mk .other 14 21 [] []],
        .mk .other 22 25 [] []]]]

/-- A variable declarator with a type annotation nested inside a
type-asserted expression:
`const g = (function () \x7b const a: number = 1; \x7d) as any;`. -/
def c5src : String := "const g = (function () \x7b const a: number = 1; \x7d) as any;"

/-- The parse of `c5src`: the initializer is the as-expression on
`[9, 55)`; inside its function body sits the declarator `a: number = 1`
with the colon token at `[32, 33)` and declared type ending at 40. -/
def c5tree : Node :=
  .mk .other 0 56 [] [
    .mk .other 0 56 [] [
      .mk .other 0 55 [] [
        .mk (.varDecl none) 5 55
          [⟨.otherTok, 5, 7⟩, ⟨.otherTok, 7, 9⟩]
          [.mk .other 5 7 [] [],
           .mk (.asExpr "(function () \x7b const a: number = 1; \x7d)") 9 55 []
             [.mk .other 9 48 [] [
                .mk (.functionExpr none none []) 11 47
                  [⟨.otherTok, 11, 19⟩, ⟨.otherTok, 19, 20⟩, ⟨.otherTok, 20, 21⟩,
                   ⟨.otherTok, 21, 22⟩, ⟨.otherTok, 22, 47⟩]
                  [.mk .other 22 47 [] [
                    .mk .other 24 45 [] [
                      .mk .other 24 44 [] [
                        .mk (.varDecl (some 40)) 30 44
                          [⟨.otherTok, 30, 32⟩, ⟨.colonToken, 32, 33⟩,
                           ⟨.otherTok, 33, 40⟩, ⟨.otherTok, 40, 42⟩,
                           ⟨.otherTok, 42, 44⟩]
                          [.mk .other 30 32 [] [], .mk .other 33 40 [] [],
                           .mk .other 42 44 [] []]]]]]],
              .mk .other 51 55 [] []]]]]]

/-- A JSX element with a namespaced attribute name:
`<div on:click=\x7b() => \x7b\x7d\x7d></div>`. -/
def c7src : String := "<div on:click=\x7b() => \x7b\x7d\x7d></div>"

/-- The parse of `c7src`: JSX element, opening element, attribute with the
namespaced name `on:click` (a JSX name node, not a type-bearing node), a
JSX expression holding an arrow function with no type parameters, no
return type and no parameters. -/
def c7tree : Node :=
  .mk .other 0 31 [] [
    .mk .other 0 31 [] [
      .mk .other 0 31 [] [
        .mk .other 0 25 [] [
          .mk .other 1 4 [] [],
          .mk .other 4 24 [] [
            .mk .other 4 24 [] [
              .mk .other 4 13 [] [],
              .mk .other 14 24 [] [
                .mk (.arrowFunction none none []) 15 23 []
                  [.mk .other 20 23 [] []]]]]],
        .mk .other 25 31 [] [.mk .other 27 30 [] []]]]]

/-- A named-export list with one type-only and two value specifiers:
`export \x7b type Foo, Bar, Baz \x7d from "./m";`. -/
def c8src : String := "export \x7b type Foo, Bar, Baz \x7d from \"./m\";"

/-- The parse of `c8src`: a non-type-only export declaration whose
named-export list on `[6, 29)` holds the specifiers `type Foo`, `Bar`,
`Baz`. -/
def c8tree : Node :=
  .mk .other 0 41 [] [
    .mk (.exportDecl false) 0 41 [] [
      .mk (.namedExports [⟨true, "type Foo"⟩, ⟨false, "Bar"⟩, ⟨false, "Baz"⟩]) 6 29 []
        [.mk .other 8 17 [] [], .mk .other 18 22 [] [], .mk .other 23 27 [] []],
      .mk .other 34 40 [] []]]

/-- An input with no type-only syntax whose specifier list holds a
comment: `import \x7b Bar /* keep */, Baz \x7d from "./b";`. -/
def c9src : String := "import \x7b Bar /* keep */, Baz \x7d from \"./b\";"

/-- The parse of `c9src`: a plain value import whose named-import list on
`[6, 30)` holds the two value specifiers `Bar` and `Baz`; the comment
between them is trivia inside the range of the list. -/
def c9tree : Node :=
  .mk .other 0 42 [] [
    .mk (.importDecl false) 0 42 [] [
      .mk .other 6 30 [] [
        .mk (.namedImports [⟨false, "Bar"⟩, ⟨false, "Baz"⟩]) 6 30 []
          [.mk .other 8 12 [] [], .mk .other 24 28 [] []]],
      .mk .other 35 41 [] []]]

/-- A deleted declaration preceded by a comment:
`const a = 1; /* doc */ interface I \x7b\x7d`. -/
def c10src : String := "const a = 1; /* doc */ interface I \x7b\x7d"

/-- The parse of `c10src`: the interface declaration starts at `pos = 12`,
right after the preceding semicolon, so its range includes the leading
trivia ` /* doc */ `; the declaration ends at 37. -/
def c10tree : Node :=
  .mk .other 0 37 [] [
    .mk .other 0 12 [] [
      .mk .other 0 11 [] [
        .mk (.varDecl none) 5 11
          [⟨.otherTok, 5, 7⟩, ⟨.otherTok, 7, 9⟩, ⟨.otherTok, 9, 11⟩]
          [.mk .other 5 7 [] [], .mk .other 9 11 [] []]]],
    .mk .interfaceDecl 12 37 [] [.mk .other 32 34 [] []]]

/-- A nested type assertion: `const b = (123 as number) as string;`. -/
def c6src : String := "const b = (123 as number) as string;"

/-- The parse of `c6src`: the outer as-expression on `[9, 35)` has inner
expression text `(123 as number)`; the inner as-expression `123 as number`
sits on `[11, 24)` with inner expression text `123`. -/
def c6tree : Node :=
  .mk .other 0 36 [] [
    .mk .other 0 36 [] [
      .mk .other 0 35 [] [
        .mk (.varDecl none) 5 35
          [⟨.otherTok, 5, 7⟩, ⟨.otherTok, 7, 9⟩]
          [.mk .other 5 7 [] [],
           .mk (.asExpr "(123 as number)") 9 35 []
             [.mk .other 9 25 [] [
                .mk (.asExpr "123") 11 24 []
                  [.mk .other 11 14 [] [], .mk .other 17 24 [] []]],
              .mk .other 28 35 [] []]]]]]

/-!
The claims.
-/

/-- C1: the claim states that for every input the queued edits are pairwise
non-overlapping.  The early-return discipline holds for whole-range edits,
but the variable-declaration branch (src/index.ts lines 65-74) queues the
annotation deletion and then still descends into the annotation itself; on
`c1src` (an as-expression inside the computed property name of a
type-literal annotation) the walker queues `[7, 33)` and then `[12, 22)`
inside it — two overlapping edits (the second `MagicString.overwrite` call
then throws at runtime). -/
theorem c1_walker_queues_overlapping_edits :
    walk c1tree = [⟨7, 33, ""⟩, ⟨12, 22, "\"a\""⟩] ∧
    pairwiseDisjointB (walk c1tree) = false := by
  exact ⟨by decide, by decide⟩

/-- C2 counterexample: `c2tree` contains an interface declaration (nested
inside a type-asserted expression), yet the transform queues no deletion at
all — no queued edit has empty replacement text — and the rendered output
still contains the text `interface I`. -/
theorem c2_interface_inside_cast_survives :
    countNodes (fun n => decide (n.kind = NodeKind.interfaceDecl)) c2tree = 1 ∧
    (∀ e ∈ walk c2tree, e.content ≠ "") ∧
    strContains (render c2src (walk c2tree)) "interface I" = true := by
  exact ⟨by decide, by decide, by decide⟩

/-- C2 (amended): every type-only import declaration, type-only export
declaration, type-alias, interface, enum, and module declaration **that the
walker visits** is overwritten with the empty string over its whole range
`[pos, end)`, and the walker returns at once (the result is the single
edit, with nothing queued for the children). -/
theorem c2_visited_type_decl_whole_range_deleted :
    (∀ (p q : Nat) (tk : List Tok) (ch : List Node),
      walk (.mk (.importDecl true) p q tk ch) = [⟨p, q, ""⟩]) ∧
    (∀ (p q : Nat) (tk : List Tok) (ch : List Node),
      walk (.mk (.exportDecl true) p q tk ch) = [⟨p, q, ""⟩]) ∧
    (∀ (p q : Nat) (tk : List Tok) (ch : List Node),
      walk (.mk .typeAliasDecl p q tk ch) = [⟨p, q, ""⟩]) ∧
    (∀ (p q : Nat) (tk : List Tok) (ch : List Node),
      walk (.mk .interfaceDecl p q tk ch) = [⟨p, q, ""⟩]) ∧
    (∀ (p q : Nat) (tk : List Tok) (ch : List Node),
      walk (.mk .enumDecl p q tk ch) = [⟨p, q, ""⟩]) ∧
    (∀ (p q : Nat) (tk : List Tok) (ch : List Node),
      walk (.mk .moduleDecl p q tk ch) = [⟨p, q, ""⟩]) :=
  ⟨fun _ _ _ _ => rfl, fun _ _ _ _ => rfl, fun _ _ _ _ => rfl,
   fun _ _ _ _ => rfl, fun _ _ _ _ => rfl, fun _ _ _ _ => rfl⟩

/-- C3: a named-import list is always replaced, over its whole range, by
the non-type-only specifiers in their original order and original text,
comma-joined and brace-wrapped, and the walker returns at once; the
filtered list is a sublist (order preserved); a non-type-only import
declaration itself queues nothing and recurses, so when every specifier is
type-only the list collapses to the empty brace pair while the
surrounding statement (the module load) stays in the rendered output
(`c3src`). -/
theorem c3_named_imports_filtered :
    (∀ (p q : Nat) (tk : List Tok) (ch : List Node) (els : List Specifier),
      walk (.mk (.namedImports els) p q tk ch) =
        [⟨p, q, "\x7b" ++ String.intercalate ","
            ((els.filter (fun s => !s.isTypeOnly)).map Specifier.text) ++ "\x7d"⟩]) ∧
    (∀ els : List Specifier,
      List.Sublist ((els.filter (fun s => !s.isTypeOnly)).map Specifier.text)
        (els.map Specifier.text)) ∧
    (∀ (p q : Nat) (tk : List Tok) (ch : List Node),
      walk (.mk (.importDecl false) p q tk ch) = walkList ch) ∧
    walk c3tree = [⟨6, 19, "\x7b\x7d"⟩] ∧
    render c3src (walk c3tree) = "import\x7b\x7d from \"./m\";" ∧
    strContains (render c3src (walk c3tree)) "from \"./m\"" = true :=
  ⟨fun _ _ _ _ _ => rfl,
   fun els => List.Sublist.map Specifier.text (List.filter_sublist els),
   fun _ _ _ _ => rfl,
   by decide, by decide, by decide⟩

/-- C4: the claim covers methods, but `walk` matches only
`ts.isFunctionDeclaration`, `ts.isFunctionExpression` and
`ts.isArrowFunction` (src/index.ts lines 76-80) — a class method is none of
these, so on `c4src` the walker queues nothing and the parameter type
`: number` survives verbatim in the rendered output, while on a plain
function declaration (`s3src`, spec scenario 3) the generic list
`[12, 15)`, the return type `[26, 34)` and the parameter annotation
`[17, 25)` are all deleted as the claim describes. -/
theorem c4_method_types_untouched :
    walk c4tree = [] ∧
    render c4src (walk c4tree) = c4src ∧
    strContains c4src ": number" = true ∧
    walk s3tree = [⟨12, 15, ""⟩, ⟨26, 34, ""⟩, ⟨17, 25, ""⟩] ∧
    render s3src (walk s3tree) = "function foo(a) \x7b return String(a); \x7d" := by
  exact ⟨by decide, by decide, by decide, by decide, by decide⟩

/-- C5 counterexample: `c5tree` contains a variable declarator with a
declared type (colon token at `[32, 33)`, type end 40) nested inside a
type-asserted expression; the transform never queues the deletion
`[32, 40)` for it, and `: number` survives in the rendered output. -/
theorem c5_nested_declarator_type_kept :
    countNodes (fun n => decide (n.kind = NodeKind.varDecl (some 40))) c5tree = 1 ∧
    (⟨32, 40, ""⟩ : Edit) ∉ walk c5tree ∧
    strContains (render c5src (walk c5tree)) ": number" = true := by
  exact ⟨by decide, by decide, by decide⟩

/-- C5 (amended): for every variable declarator **the walker visits** that
carries a declared type and whose children contain a colon token, the queued
edit deletes exactly `[colonToken.pos, type.end)` and the walker then
continues into the children (name, initializer and punctuation are not
touched by this node); on spec scenario 2 the rendered output is
`const a = 123;`. -/
theorem c5_visited_declarator_colon_to_type_deleted :
    (∀ (p q : Nat) (tk : List Tok) (ch : List Node) (te : Nat) (ct : Tok),
      tk.find? (fun c => c.kind == TokKind.colonToken) = some ct →
      walk (.mk (.varDecl (some te)) p q tk ch) = ⟨ct.pos, te, ""⟩ :: walkList ch) ∧
    walk s2tree = [⟨7, 15, ""⟩] ∧
    render s2src (walk s2tree) = "const a = 123;" := by
  refine ⟨?_, by decide, by decide⟩
  intro p q tk ch te ct hfind
  simp [walk, nodeEdits, earlyReturn, hfind]

/-- Witness for the amended C5 theorem at a concrete declarator: the colon
token `[7, 8)` is found and the deletion `[7, 15)` is queued. -/
theorem c5_visited_declarator_colon_to_type_deleted_witness :
    (([⟨TokKind.otherTok, 5, 7⟩, ⟨TokKind.colonToken, 7, 8⟩] : List Tok).find?
        (fun c => c.kind == TokKind.colonToken) = some ⟨TokKind.colonToken, 7, 8⟩) ∧
    walk (.mk (.varDecl (some 15)) 5 21
        [⟨.otherTok, 5, 7⟩, ⟨.colonToken, 7, 8⟩] []) = ⟨7, 15, ""⟩ :: walkList [] :=
  ⟨by decide,
   c5_visited_declarator_colon_to_type_deleted.1 5 21
     [⟨.otherTok, 5, 7⟩, ⟨.colonToken, 7, 8⟩] [] 15 ⟨.colonToken, 7, 8⟩ (by decide)⟩

/-- C6 counterexample: in `c6tree` the inner as-expression `123 as number`
is a type-assertion expression of the parsed tree, yet its range is never
replaced — the outer assertion is rewritten first and the walker returns,
so the rendered output still contains `as number`. -/
theorem c6_nested_cast_kept :
    countNodes (fun n => decide (n.kind = NodeKind.asExpr "123")) c6tree = 1 ∧
    walk c6tree = [⟨9, 35, "(123 as number)"⟩] ∧
    strContains (render c6src (walk c6tree)) "as number" = true := by
  exact ⟨by decide, by decide, by decide⟩

/-- C6 (amended): every type-assertion expression **the walker visits** is
replaced, over its whole range, by the original text of its inner
expression only, and the walker returns at once; on spec scenario 4 the
output contains `"123"` and no `as number`. -/
theorem c6_visited_cast_replaced_by_expression :
    (∀ (p q : Nat) (tk : List Tok) (ch : List Node) (txt : String),
      walk (.mk (.asExpr txt) p q tk ch) = [⟨p, q, txt⟩]) ∧
    walk s4tree = [⟨9, 25, "\"123\""⟩] ∧
    render s4src (walk s4tree) = "const b =\"123\";" ∧
    strContains (render s4src (walk s4tree)) "as number" = false ∧
    strContains (render s4src (walk s4tree)) "\"123\"" = true :=
  ⟨fun _ _ _ _ _ => rfl, by decide, by decide, by decide, by decide⟩

/-- C7: every queued edit comes from the matching branch at some parser
node (the classifier consumes node structure, never the raw text), a node
the classifier does not match queues nothing, and on the JSX input `c7src`
the walker queues no edit at all, so the namespaced attribute name
`on:click` reaches the output unmodified. -/
theorem c7_markup_colon_safe :
    (∀ (t : Node) (e : Edit), e ∈ walk t → ∃ n, n ∈ subnodes t ∧ e ∈ nodeEdits n) ∧
    (∀ (p q : Nat) (tk : List Tok) (ch : List Node),
      nodeEdits (.mk .other p q tk ch) = []) ∧
    walk c7tree = [] ∧
    render c7src (walk c7tree) = c7src ∧
    strContains (render c7src (walk c7tree)) "on:click" = true :=
  ⟨walk_edit_from_node, fun _ _ _ _ => rfl, by decide, by decide, by decide⟩

/-- Witness for the C7 theorem at a concrete tree and edit: the deletion
queued at an interface declaration comes from that node. -/
theorem c7_markup_colon_safe_witness :
    ((⟨0, 5, ""⟩ : Edit) ∈ walk (.mk .interfaceDecl 0 5 [] [])) ∧
    (∃ n, n ∈ subnodes (.mk .interfaceDecl 0 5 [] []) ∧
      (⟨0, 5, ""⟩ : Edit) ∈ nodeEdits n) :=
  ⟨by decide, c7_markup_colon_safe.1 (.mk .interfaceDecl 0 5 [] []) ⟨0, 5, ""⟩ (by decide)⟩

/-- C8 counterexample: on `c8tree` the replacement text is
`\x7bBar, Baz\x7d` — the space follows each comma, and the opening brace is
**not** followed by a space as the claim states. -/
theorem c8_no_space_after_open_brace :
    walk c8tree = [⟨6, 29, "\x7bBar, Baz\x7d"⟩] ∧
    (∀ e ∈ walk c8tree, isPre ("\x7b ").toList e.content.toList = false) ∧
    render c8src (walk c8tree) = "export\x7bBar, Baz\x7d from \"./m\";" := by
  exact ⟨by decide, by decide, by decide⟩

/-- C8 (amended): a named-export list is replaced by the non-type-only
specifiers exactly as a named-import list is (same filter, original text,
order preserved), except that the join separator is comma-space (a space
after each comma, none after the opening brace). -/
theorem c8_named_exports_comma_space :
    (∀ (p q : Nat) (tk : List Tok) (ch : List Node) (els : List Specifier),
      walk (.mk (.namedExports els) p q tk ch) =
        [⟨p, q, "\x7b" ++ String.intercalate ", "
            ((els.filter (fun s => !s.isTypeOnly)).map Specifier.text) ++ "\x7d"⟩]) ∧
    (∀ els : List Specifier,
      List.Sublist (els.filter (fun s => !s.isTypeOnly)) els) :=
  ⟨fun _ _ _ _ _ => rfl, fun els => List.filter_sublist els⟩

/-- C9 counterexample: `c9tree` contains no type-only syntax, yet the
transform does not return the input unchanged — the named-import list is
rewritten even though none of its specifiers is type-only, and the comment
inside the list is dropped, a difference no whitespace normalization can
undo (`normalizeWs` is the `normalize` of src/index.ts lines 121-123). -/
theorem c9_comment_dropped_from_value_import :
    typeOnlyFree c9tree = true ∧
    strContains c9src "keep" = true ∧
    strContains (render c9src (walk c9tree)) "keep" = false ∧
    normalizeWs (render c9src (walk c9tree)) ≠ normalizeWs c9src := by
  exact ⟨by decide, by decide, by decide, by decide⟩

/-- C9 (amended): on a tree every node of which the classifier passes over
silently (no type-only syntax **and** no named import/export specifier
list), the transform queues no edit and the render returns the input
byte-for-byte; unrecognized node shapes never raise, they simply contribute
nothing. -/
theorem c9_inert_tree_unchanged :
    ∀ (t : Node) (src : String), inertTree t = true →
      walk t = [] ∧ render src (walk t) = src := by
  intro t src h
  have hw := inert_walk_nil t h
  exact ⟨hw, by rw [hw]; exact render_nil src⟩

/-- Witness for the amended C9 theorem at the concrete class-method tree:
it is inert and renders unchanged. -/
theorem c9_inert_tree_unchanged_witness :
    inertTree c4tree = true ∧ (walk c4tree = [] ∧ render c4src (walk c4tree) = c4src) :=
  ⟨by decide, c9_inert_tree_unchanged c4tree c4src (by decide)⟩

/-- C10: a whole-declaration deletion starts exactly at the `pos` field of
the node (which, per the parser contract, includes the leading trivia of
the node); rendering one edit keeps every byte outside `[start, finish)`
verbatim; and on `c10src` the comment `/* doc */` preceding the interface
declaration is inside the deleted range `[12, 37)`, so the output is
exactly the untouched prefix `const a = 1;`. -/
theorem c10_deletion_takes_leading_trivia :
    (∀ (p q : Nat) (tk : List Tok) (ch : List Node),
      nodeEdits (.mk .typeAliasDecl p q tk ch) =
        [⟨(Node.mk .typeAliasDecl p q tk ch).pos, (Node.mk .typeAliasDecl p q tk ch).endP, ""⟩]) ∧
    (∀ (src : String) (s e : Nat) (c : String),
      render src [⟨s, e, c⟩] =
        String.mk (src.toList.take s ++ c.toList ++ src.toList.drop e)) ∧
    walk c10tree = [⟨12, 37, ""⟩] ∧
    render c10src (walk c10tree) = "const a = 1;" ∧
    strContains c10src "/* doc */" = true ∧
    strContains (render c10src (walk c10tree)) "doc" = false := by
  refine ⟨fun _ _ _ _ => rfl, ?_, by decide, by decide, by decide, by decide⟩
  intro src s e c
  simp [render, sortEdits, insertEdit, spliceFrom]
